import Mathlib

/-!
Verification development for the GrowthLoop LLM gateway and
placeholder-resolution pipeline.

The definitions below are a shallow embedding of the TypeScript sources:
the Plato transport client (postWithRetry, chatCompletion, imagesGenerate),
the response decoder (safeJSON and a model of JSON.parse), the generation
orchestrator (analyzeNoteContent, generateStackTitle, determineStackCategory,
generateInsights, generateInContextImage), and the placeholder resolver
(the ArticleArchitect scan effect, finalEditorContent, and the
InsightGenerator processInContextImages loop).

Network transports are modelled as explicit response sequences
(functions from the attempt index to the response), and every operation
returns, next to its result, the list of requests it issued, so that
call counts are observable.  JavaScript strings are modelled as Lean
strings; JSON.parse is modelled by an executable parser of the JSON
grammar whose numbers keep their source lexeme.
-/

namespace Growthloop

/-! ## JavaScript string helpers -/

/-- Character class of the JavaScript regexp escape backslash-s and of
String.prototype.trim: whitespace and line terminators. -/
def jsWs (c : Char) : Bool :=
  let n := c.toNat
  n == 9 || n == 10 || n == 11 || n == 12 || n == 13 || n == 32 ||
  n == 0xa0 || n == 0x1680 || (decide (0x2000 ≤ n) && decide (n ≤ 0x200a)) ||
  n == 0x2028 || n == 0x2029 || n == 0x202f || n == 0x205f ||
  n == 0x3000 || n == 0xfeff

/-- Line terminators, which the JavaScript regexp dot does not match. -/
def jsLineTerm (c : Char) : Bool :=
  let n := c.toNat
  n == 10 || n == 13 || n == 0x2028 || n == 0x2029

/-- Model of String.prototype.trim. -/
def jsTrim (s : String) : String :=
  String.mk (((s.data.dropWhile jsWs).reverse.dropWhile jsWs).reverse)

/-- Does the character list start with the given pattern? -/
def listStartsWith : List Char → List Char → Bool
  | [], _ => true
  | _ :: _, [] => false
  | p :: ps, c :: cs => p == c && listStartsWith ps cs

/-- Split at the first occurrence of a pattern: returns the part before the
match and the part after it.  Models the position search of
String.prototype.replace and of regexp literals. -/
def findSub (pat : List Char) : List Char → Option (List Char × List Char)
  | [] => if listStartsWith pat [] then some ([], []) else none
  | c :: rest =>
    if listStartsWith pat (c :: rest) then some ([], (c :: rest).drop pat.length)
    else (findSub pat rest).map (fun pr => (c :: pr.1, pr.2))

/-- Model of String.prototype.replace with a plain-string pattern:
replaces the first occurrence only. -/
def replaceFirst (s pat repl : String) : String :=
  match findSub pat.data s.data with
  | some pr => String.mk (pr.1 ++ repl.data ++ pr.2)
  | none => s

/-- Does the pattern occur anywhere in the character list? -/
def listContainsSub (pat : List Char) : List Char → Bool
  | [] => listStartsWith pat []
  | c :: rest => listStartsWith pat (c :: rest) || listContainsSub pat rest

/-- Model of String.prototype.includes. -/
def containsSubstr (s pat : String) : Bool :=
  listContainsSub pat.data s.data

/-- Model of String.prototype.startsWith. -/
def strStartsWith (s pre : String) : Bool :=
  listStartsWith pre.data s.data

/-- Model of String.prototype.toUpperCase restricted to ASCII letters. -/
def jsToUpper (s : String) : String :=
  String.mk (s.data.map Char.toUpper)

/-! ## JSON values and a model of JSON.parse

Numbers keep their source lexeme, which avoids modelling JavaScript
float semantics while still distinguishing every parse outcome the
claims compare. -/

inductive JValue where
  | jnull : JValue
  | jbool (b : Bool) : JValue
  | jnum (lexeme : String) : JValue
  | jstr (s : String) : JValue
  | jarr (elems : List JValue) : JValue
  | jobj (members : List (String × JValue)) : JValue

/-- JSON insignificant whitespace (space, tab, line feed, carriage return). -/
def jsonWs (c : Char) : Bool :=
  c == ' ' || c == '\t' || c == '\n' || c == '\r'

def skipJsonWs (cs : List Char) : List Char := cs.dropWhile jsonWs

def isJsonDigit (c : Char) : Bool := decide ('0' ≤ c) && decide (c ≤ '9')

def hexVal (c : Char) : Option Nat :=
  if decide ('0' ≤ c) && decide (c ≤ '9') then some (c.toNat - '0'.toNat)
  else if decide ('a' ≤ c) && decide (c ≤ 'f') then some (c.toNat - 'a'.toNat + 10)
  else if decide ('A' ≤ c) && decide (c ≤ 'F') then some (c.toNat - 'A'.toNat + 10)
  else none

/-- Body of a JSON string after the opening quote: returns the decoded
characters and the input following the closing quote.  Escapes follow
the JSON grammar; surrogate pairs in backslash-u escapes are combined,
a lone surrogate decodes to the replacement character. -/
def parseStringBody : Nat → List Char → Option (List Char × List Char)
  | 0, _ => none
  | Nat.succ _, [] => none
  | Nat.succ _, '"' :: rest => some ([], rest)
  | Nat.succ fuel, '\\' :: rest =>
    match rest with
    | '"' :: r => (parseStringBody fuel r).map (fun pr => ('"' :: pr.1, pr.2))
    | '\\' :: r => (parseStringBody fuel r).map (fun pr => ('\\' :: pr.1, pr.2))
    | '/' :: r => (parseStringBody fuel r).map (fun pr => ('/' :: pr.1, pr.2))
    | 'b' :: r => (parseStringBody fuel r).map (fun pr => ('\x08' :: pr.1, pr.2))
    | 'f' :: r => (parseStringBody fuel r).map (fun pr => ('\x0c' :: pr.1, pr.2))
    | 'n' :: r => (parseStringBody fuel r).map (fun pr => ('\n' :: pr.1, pr.2))
    | 'r' :: r => (parseStringBody fuel r).map (fun pr => ('\r' :: pr.1, pr.2))
    | 't' :: r => (parseStringBody fuel r).map (fun pr => ('\t' :: pr.1, pr.2))
    | 'u' :: h1 :: h2 :: h3 :: h4 :: r =>
      match hexVal h1, hexVal h2, hexVal h3, hexVal h4 with
      | some a, some b, some c, some d =>
        let n := ((a * 16 + b) * 16 + c) * 16 + d
        if decide (0xd800 ≤ n) && decide (n < 0xdc00) then
          match r with
          | '\\' :: 'u' :: g1 :: g2 :: g3 :: g4 :: r2 =>
            match hexVal g1, hexVal g2, hexVal g3, hexVal g4 with
            | some a2, some b2, some c2, some d2 =>
              let n2 := ((a2 * 16 + b2) * 16 + c2) * 16 + d2
              if decide (0xdc00 ≤ n2) && decide (n2 < 0xe000) then
                let cp := 0x10000 + (n - 0xd800) * 0x400 + (n2 - 0xdc00)
                (parseStringBody fuel r2).map (fun pr => (Char.ofNat cp :: pr.1, pr.2))
              else
                (parseStringBody fuel r).map (fun pr => ('�' :: pr.1, pr.2))
            | _, _, _, _ =>
              (parseStringBody fuel r).map (fun pr => ('�' :: pr.1, pr.2))
          | _ => (parseStringBody fuel r).map (fun pr => ('�' :: pr.1, pr.2))
        else if decide (0xdc00 ≤ n) && decide (n < 0xe000) then
          (parseStringBody fuel r).map (fun pr => ('�' :: pr.1, pr.2))
        else
          (parseStringBody fuel r).map (fun pr => (Char.ofNat n :: pr.1, pr.2))
      | _, _, _, _ => none
    | _ => none
  | Nat.succ fuel, c :: rest =>
    if c.toNat < 0x20 then none
    else (parseStringBody fuel rest).map (fun pr => (c :: pr.1, pr.2))

/-- JSON number token: optional minus, integer part, optional fraction,
optional exponent.  Returns the lexeme and the remaining input. -/
def parseNumber (cs : List Char) : Option (List Char × List Char) :=
  let (sign, cs1) :=
    match cs with
    | '-' :: r => (['-'], r)
    | _ => (([] : List Char), cs)
  match cs1 with
  | [] => none
  | c :: _ =>
    if isJsonDigit c then
      let (intPart, cs2) :=
        match cs1 with
        | '0' :: r => (['0'], r)
        | _ => (cs1.takeWhile isJsonDigit, cs1.dropWhile isJsonDigit)
      let fracStep : Option (List Char × List Char) :=
        match cs2 with
        | '.' :: r =>
          let ds := r.takeWhile isJsonDigit
          if ds.isEmpty then none else some ('.' :: ds, r.dropWhile isJsonDigit)
        | _ => some ([], cs2)
      match fracStep with
      | none => none
      | some (fracPart, cs3) =>
        let expStep : Option (List Char × List Char) :=
          match cs3 with
          | 'e' :: r =>
            let (es, r1) :=
              match r with
              | '+' :: r2 => (['e', '+'], r2)
              | '-' :: r2 => (['e', '-'], r2)
              | _ => (['e'], r)
            let ds := r1.takeWhile isJsonDigit
            if ds.isEmpty then none else some (es ++ ds, r1.dropWhile isJsonDigit)
          | 'E' :: r =>
            let (es, r1) :=
              match r with
              | '+' :: r2 => (['E', '+'], r2)
              | '-' :: r2 => (['E', '-'], r2)
              | _ => (['E'], r)
            let ds := r1.takeWhile isJsonDigit
            if ds.isEmpty then none else some (es ++ ds, r1.dropWhile isJsonDigit)
          | _ => some ([], cs3)
        match expStep with
        | none => none
        | some (expPart, cs4) => some (sign ++ intPart ++ fracPart ++ expPart, cs4)
    else none

mutual

/-- JSON value parser; the fuel argument bounds the recursion depth. -/
def parseValue : Nat → List Char → Option (JValue × List Char)
  | 0, _ => none
  | Nat.succ fuel, cs =>
    match cs with
    | 'n' :: 'u' :: 'l' :: 'l' :: r => some (JValue.jnull, r)
    | 't' :: 'r' :: 'u' :: 'e' :: r => some (JValue.jbool true, r)
    | 'f' :: 'a' :: 'l' :: 's' :: 'e' :: r => some (JValue.jbool false, r)
    | '"' :: r =>
      (parseStringBody (r.length + 1) r).map
        (fun pr => (JValue.jstr (String.mk pr.1), pr.2))
    | '[' :: r =>
      match skipJsonWs r with
      | ']' :: r2 => some (JValue.jarr [], r2)
      | _ => (parseElems fuel r).map (fun pr => (JValue.jarr pr.1, pr.2))
    | '\x7b' :: r =>
      match skipJsonWs r with
      | '\x7d' :: r2 => some (JValue.jobj [], r2)
      | r1 => (parseMembers fuel r1).map (fun pr => (JValue.jobj pr.1, pr.2))
    | c :: _ =>
      if c == '-' || isJsonDigit c then
        (parseNumber cs).map (fun pr => (JValue.jnum (String.mk pr.1), pr.2))
      else none
    | [] => none

/-- One or more comma-separated array elements followed by the closing
bracket. -/
def parseElems : Nat → List Char → Option (List JValue × List Char)
  | 0, _ => none
  | Nat.succ fuel, cs =>
    match parseValue fuel (skipJsonWs cs) with
    | none => none
    | some (v, rest) =>
      match skipJsonWs rest with
      | ',' :: r2 => (parseElems fuel r2).map (fun pr => (v :: pr.1, pr.2))
      | ']' :: r2 => some ([v], r2)
      | _ => none

/-- One or more comma-separated object members followed by the closing
brace. -/
def parseMembers : Nat → List Char → Option (List (String × JValue) × List Char)
  | 0, _ => none
  | Nat.succ fuel, cs =>
    match skipJsonWs cs with
    | '"' :: r =>
      match parseStringBody (r.length + 1) r with
      | none => none
      | some (key, r1) =>
        match skipJsonWs r1 with
        | ':' :: r2 =>
          match parseValue fuel (skipJsonWs r2) with
          | none => none
          | some (v, r3) =>
            match skipJsonWs r3 with
            | ',' :: r4 =>
              (parseMembers fuel r4).map (fun pr => ((String.mk key, v) :: pr.1, pr.2))
            | '\x7d' :: r4 => some ([(String.mk key, v)], r4)
            | _ => none
        | _ => none
    | _ => none

end

/-- Model of JSON.parse: parses a complete JSON text and rejects
trailing garbage; a parse error is the none outcome (the JavaScript
exception, always caught by the callers modelled here). -/
def jsonParse (s : String) : Option JValue :=
  match parseValue (2 * s.data.length + 2) (skipJsonWs s.data) with
  | some (v, rest) => if (skipJsonWs rest).isEmpty then some v else none
  | none => none

/-! ## safeJSON (src/services/geminiService.ts, lines 16 to 40) -/

/-- Completion of the fenced-code-block regexp once an opening triple
backtick has been found: optionally consume the literal word json, then
greedy whitespace, then the lazy capture group up to the next triple
backtick.  Returns the captured content, or none when no closing fence
follows. -/
def codeBlockAt (rest : List Char) : Option (List Char) :=
  let rest1 := if listStartsWith ['j', 's', 'o', 'n'] rest then rest.drop 4 else rest
  let rest2 := rest1.dropWhile jsWs
  (findSub ['`', '`', '`'] rest2).map (fun pr => pr.1)

/-- Leftmost match of the fenced-code-block regexp of safeJSON: scans for
a triple backtick that is followed, after an optional json tag and
whitespace, by a closing triple backtick, and captures the content in
between. -/
def findCodeBlockAux : List Char → Option (List Char)
  | [] => none
  | c :: rest =>
    if listStartsWith ['`', '`', '`'] (c :: rest) then
      match codeBlockAt ((c :: rest).drop 3) with
      | some content => some content
      | none => findCodeBlockAux rest
    else findCodeBlockAux rest

def findCodeBlock (s : String) : Option String :=
  (findCodeBlockAux s.data).map String.mk

def firstIdxOf (c : Char) (cs : List Char) : Option Nat :=
  cs.findIdx? (fun d => d == c)

def lastIdxOf (c : Char) (cs : List Char) : Option Nat :=
  (firstIdxOf c cs.reverse).map (fun i => cs.length - 1 - i)

/-- Leftmost match of the greedy brace regexp of safeJSON strategy three:
it spans from the first opening brace of the string to the last closing
brace, and exists exactly when some closing brace follows the first
opening brace. -/
def braceSpan (s : String) : Option String :=
  match firstIdxOf '\x7b' s.data, lastIdxOf '\x7d' s.data with
  | some i, some j =>
    if i < j then some (String.mk ((s.data.drop i).take (j - i + 1))) else none
  | _, _ => none

/-- Embedding of safeJSON: a single try block attempts, by guard, the
fenced code block, then the trimmed string when it starts with a brace
or bracket, then the greedy brace span; a JSON.parse failure anywhere
raises into the catch, which returns the fallback. -/
def safeJSON (s : String) (fallback : JValue) : JValue :=
  match findCodeBlock s with
  | some content => (jsonParse (jsTrim content)).getD fallback
  | none =>
    let trimmed := jsTrim s
    if strStartsWith trimmed "\x7b" || strStartsWith trimmed "[" then
      (jsonParse trimmed).getD fallback
    else
      match braceSpan s with
      | some span => (jsonParse span).getD fallback
      | none => fallback

/-! ## Spec-side definitions for the decoder claims

These two definitions follow the wording of the specification, not the
source, and exist to be compared with safeJSON. -/

/-- Walk a balanced brace span: depth goes up on opening braces and down
on closing braces, the span ends when depth returns to zero. -/
def takeBalanced : List Char → Nat → List Char → Option (List Char)
  | [], _, _ => none
  | c :: rest, depth, acc =>
    if c == '\x7b' then takeBalanced rest (depth + 1) (acc ++ [c])
    else if c == '\x7d' then
      if depth == 1 then some (acc ++ [c])
      else takeBalanced rest (depth - 1) (acc ++ [c])
    else takeBalanced rest depth (acc ++ [c])

def spec_firstBalancedSpanAux : List Char → Option (List Char)
  | [] => none
  | c :: rest =>
    if c == '\x7b' then
      match takeBalanced (c :: rest) 0 [] with
      | some span => some span
      | none => spec_firstBalancedSpanAux rest
    else spec_firstBalancedSpanAux rest

/-- Modelled from the spec: the first balanced brace span found anywhere
in the string, which the spec names as the input of extraction strategy
three. -/
def spec_firstBalancedSpan (s : String) : Option String :=
  (spec_firstBalancedSpanAux s.data).map String.mk

/-- The three extraction inputs of safeJSON in attempt order, by guard. -/
def spec_strategies (s : String) : List (Option String) :=
  [(findCodeBlock s).map jsTrim,
   (if strStartsWith (jsTrim s) "\x7b" || strStartsWith (jsTrim s) "[" then
      some (jsTrim s)
    else none),
   braceSpan s]

def spec_firstApplicable : List (Option String) → Option String
  | [] => none
  | some c :: _ => some c
  | none :: rest => spec_firstApplicable rest

/-- The amended decoder contract: commit to the first strategy whose
guard applies, parse its text, and fall back when that single parse
fails or when no guard applies. -/
def spec_safeJSON_amended (s : String) (fallback : JValue) : JValue :=
  match spec_firstApplicable (spec_strategies s) with
  | some c => (jsonParse c).getD fallback
  | none => fallback

/-! ## Placeholder scanning (regexp GEN_IMG of ConfirmDialog.tsx line 197
and InsightGenerator.tsx line 92) -/

/-- Lazy tail of the placeholder regexp: collect prompt characters (the
dot of the regexp, hence no line terminators) until the closing double
brace. -/
def takeUntilClose : List Char → Option (List Char × List Char)
  | [] => none
  | c :: rest =>
    if listStartsWith ['\x7d', '\x7d'] (c :: rest) then some ([], rest.drop 1)
    else if jsLineTerm c then none
    else (takeUntilClose rest).map (fun pr => (c :: pr.1, pr.2))

def genImgOpen : List Char := ['\x7b', '\x7b', 'G', 'E', 'N', '_', 'I', 'M', 'G', ':', ' ']

/-- Global scan of the placeholder regexp: returns the captured prompts
in match order, duplicates included. -/
def scanPromptsAux : Nat → List Char → List (List Char)
  | 0, _ => []
  | Nat.succ _, [] => []
  | Nat.succ fuel, c :: rest =>
    if listStartsWith genImgOpen (c :: rest) then
      match takeUntilClose (rest.drop 10) with
      | some (p, after) => p :: scanPromptsAux fuel after
      | none => scanPromptsAux fuel rest
    else scanPromptsAux fuel rest

def extractPrompts (s : String) : List String :=
  (scanPromptsAux (s.data.length + 1) s.data).map String.mk

/-! ## Placeholder state (ArticleArchitect in ConfirmDialog.tsx) -/

/-- One entry of the imagePlaceholders record. -/
structure PEntry where
  isLoading : Bool
  url : Option String

/-- The imagePlaceholders record, as an insertion-ordered key-value list,
matching JavaScript object key order for the non-numeric prompt keys in
use. -/
abbrev PlaceholderMap := List (String × PEntry)

def mapLookup : PlaceholderMap → String → Option PEntry
  | [], _ => none
  | (q, e) :: rest, p => if q = p then some e else mapLookup rest p

/-- Functional update of the record: an existing key keeps its position,
a new key is appended. -/
def mapInsert : PlaceholderMap → String → PEntry → PlaceholderMap
  | [], p, e => [(p, e)]
  | (q, f) :: rest, p, e =>
    if q = p then (q, e) :: rest else (q, f) :: mapInsert rest p e

/-- The while loop of the image-generation effect (ConfirmDialog.tsx
lines 200 to 223): iterates over the extracted prompts; the guard reads
the imagePlaceholders value captured by the effect closure (the snapshot
argument), while the functional setState updates accumulate in the second
argument.  Returns the accumulated map and the prompts for which a
generateInContextImage call was issued, in order. -/
def scanList (snapshot : PlaceholderMap) :
    List String → PlaceholderMap → PlaceholderMap × List String
  | [], acc => (acc, [])
  | p :: ps, acc =>
    if (mapLookup snapshot p).isSome then scanList snapshot ps acc
    else
      let r := scanList snapshot ps (mapInsert acc p ⟨true, none⟩)
      (r.1, p :: r.2)

/-- One run of the image-generation effect over the current editor
content. -/
def scanEffect (editorContent : String) (m : PlaceholderMap) :
    PlaceholderMap × List String :=
  scanList m (extractPrompts editorContent) m

def loadingDiv : String :=
  "\n<div style=\"text-align: center; padding: 1rem; background-color: #f1f5f9; border-radius: 0.5rem; margin: 1rem 0;\">⏳ 正在生成图片...</div>\n"

def failedDiv : String :=
  "\n<div style=\"text-align: center; padding: 1rem; background-color: #fee2e2; color: #dc2626; border-radius: 0.5rem; margin: 1rem 0;\">❌ 图片生成失败</div>\n"

/-- The finalEditorContent memo (ConfirmDialog.tsx lines 226 to 240): for
each tracked prompt, String.replace substitutes the first occurrence of
its placeholder with a loading marker, an image reference, or a failure
marker. -/
def finalEditorContent (editorContent : String) (m : PlaceholderMap) : String :=
  m.foldl
    (fun tempContent entry =>
      let placeholder := "\x7b\x7bGEN_IMG: " ++ entry.1 ++ "\x7d\x7d"
      if entry.2.isLoading then replaceFirst tempContent placeholder loadingDiv
      else
        match entry.2.url with
        | some u =>
          replaceFirst tempContent placeholder
            ("\n![Generated image for prompt: " ++ entry.1 ++ "](" ++ u ++ ")\n")
        | none => replaceFirst tempContent placeholder failedDiv)
    editorContent

/-! ## processInContextImages (InsightGenerator.tsx lines 91 to 134) -/

/-- Matches of the placeholder regexp as full-match and capture pairs. -/
def extractMatches (s : String) : List (String × String) :=
  (extractPrompts s).map (fun p => ("\x7b\x7bGEN_IMG: " ++ p ++ "\x7d\x7d", p))

def stripSquareBrackets (s : String) : String :=
  String.mk (s.data.filter (fun c => !(c == '[' || c == ']')))

/-- The sequential loop of processInContextImages: one
generateInContextImage call per match, each replacing the first remaining
occurrence of its full match.  The url argument gives the outcome of the
successive image calls; the returned number counts the calls issued. -/
def processLoop (urls : Nat → Option String) :
    List (String × String) → String → Nat → String × Nat
  | [], acc, i => (acc, i)
  | (full, prompt) :: rest, acc, i =>
    let imageMarkdown :=
      match urls i with
      | some u => "\n![" ++ stripSquareBrackets prompt ++ "](" ++ u ++ ")\n"
      | none => "\n*Failed to generate image.*\n"
    processLoop urls rest (replaceFirst acc full imageMarkdown) (i + 1)

def processInContextImages (urls : Nat → Option String) (content : String) :
    String × Nat :=
  processLoop urls (extractMatches content) content 0

/-! ## Transport client (platoClient, postWithRetry at lines 222 to 250)

The network is modelled as a response sequence: the fetch of attempt
number i yields the i-th element.  Each element is either a decoded ok
payload, a non-ok response carrying status, statusText, body text and
the optional retry-after header, or a thrown fetch error. -/

inductive FetchResult (T : Type) where
  | ok (payload : T) : FetchResult T
  | status (code : Nat) (statusText : String) (bodyText : String)
      (retryAfter : Option Nat) : FetchResult T
  | exn (message : String) : FetchResult T

inductive PostResult (T : Type) where
  | success (payload : T) : PostResult T
  | httpError (code : Nat) (statusText : String) (bodyText : String) : PostResult T
  | exn (message : String) : PostResult T

/-- The retry condition of postWithRetry: HTTP 429 or a 5xx status. -/
def retryable (code : Nat) : Bool :=
  code == 429 || (decide (500 ≤ code) && decide (code < 600))

def retryableResp {T : Type} : FetchResult T → Bool
  | FetchResult.status code _ _ _ => retryable code
  | _ => false

/-- Embedding of postWithRetry.  The body is posted once per attempt; the
returned list holds one copy of the body per network call made, so its
length is the call count.  A response that is neither ok nor a retryable
status within budget becomes the terminal HTTP error carrying the status
and body text. -/
def postWithRetry {T B : Type} (tr : Nat → FetchResult T) (body : B) :
    Nat → Nat → PostResult T × List B
  | i, 0 =>
    match tr i with
    | FetchResult.ok v => (PostResult.success v, [body])
    | FetchResult.exn m => (PostResult.exn m, [body])
    | FetchResult.status c st txt _ => (PostResult.httpError c st txt, [body])
  | i, Nat.succ maxRetries =>
    match tr i with
    | FetchResult.ok v => (PostResult.success v, [body])
    | FetchResult.exn m => (PostResult.exn m, [body])
    | FetchResult.status c st txt _ =>
      if retryable c then
        let r := postWithRetry tr body (i + 1) maxRetries
        (r.1, body :: r.2)
      else (PostResult.httpError c st txt, [body])

/-! ## Plato client configuration and chat endpoint -/

/-- The environment variables the client reads, with the empty string or
none standing for an absent variable. -/
structure PlatoEnv where
  baseUrlEnv : String
  apiKeyEnv : String
  defaultModelEnv : Option String
  imageModelEnv : Option String

/-- Strip one trailing slash, as the regexp replace on the base URL does. -/
def stripTrailingSlash (s : String) : String :=
  match s.data.reverse with
  | '/' :: rest => String.mk rest.reverse
  | _ => s

def BASE_URL (env : PlatoEnv) : String := stripTrailingSlash env.baseUrlEnv

def API_KEY (env : PlatoEnv) : String := env.apiKeyEnv

def ModelRegistryDEFAULT (env : PlatoEnv) : String :=
  env.defaultModelEnv.getD "claude"

inductive ChatRole where
  | system : ChatRole
  | user : ChatRole
  | assistant : ChatRole

inductive ChatMessageContentPart where
  | text (text : String) : ChatMessageContentPart
  | image_url (url : String) : ChatMessageContentPart

inductive ChatMessageContent where
  | str (s : String) : ChatMessageContent
  | parts (ps : List ChatMessageContentPart) : ChatMessageContent

structure ChatMessage where
  role : ChatRole
  content : ChatMessageContent

structure ChatOptions where
  model : Option String
  temperature : Option Rat
  max_tokens : Option Nat
  timeout_ms : Option Nat
  extraHeaders : List (String × String)

structure ChatPayload where
  model : String
  messages : List ChatMessage
  temperature : Rat
  max_tokens : Option Nat

structure ChatRequest where
  url : String
  headers : List (String × String)
  payload : ChatPayload

/-- The OpenAI chat response envelope, with optional chaining modelled by
Option fields. -/
structure RespMessage where
  content : Option String

structure ChatChoice where
  message : Option RespMessage

structure ChatResponse where
  choices : Option (List ChatChoice)
  error : Option String

/-- The optional-chain extraction of the first choice text, defaulting to
the empty string. -/
def extractChatText (resp : ChatResponse) : String :=
  ((((resp.choices.getD []).head?).bind ChatChoice.message).bind
      RespMessage.content).getD ""

def configErrorReply : String :=
  "Plato 接口未配置：请设置 VITE_PLATO_API_KEY 与 VITE_PLATO_BASE_URL"

def mkChatRequest (env : PlatoEnv) (messages : List ChatMessage)
    (options : ChatOptions) : ChatRequest :=
  ⟨BASE_URL env ++ "/chat/completions",
   [("Authorization", "Bearer " ++ API_KEY env),
    ("Content-Type", "application/json")] ++ options.extraHeaders,
   ⟨options.model.getD (ModelRegistryDEFAULT env), messages,
    options.temperature.getD (7 / 10 : Rat), options.max_tokens⟩⟩

/-- Embedding of chatCompletion (platoClient lines 257 to 291): missing
configuration short-circuits with the fixed message and no request;
otherwise the payload goes through postWithRetry, an empty extracted
text becomes the empty-response sentinel, and a caught error becomes the
fixed error prefix with the error message. -/
def chatCompletion (env : PlatoEnv) (tr : Nat → FetchResult ChatResponse)
    (messages : List ChatMessage) (options : ChatOptions) :
    String × List ChatRequest :=
  if BASE_URL env = "" ∨ API_KEY env = "" then (configErrorReply, [])
  else
    let req := mkChatRequest env messages options
    let r := postWithRetry tr req 0 2
    match r.1 with
    | PostResult.success data =>
      let text := extractChatText data
      ((if text = "" then "（空响应）" else text), r.2)
    | PostResult.httpError code stx body =>
      ("Plato 接口错误：HTTP " ++ toString code ++ " " ++ stx ++ ": " ++ body, r.2)
    | PostResult.exn m => ("Plato 接口错误：" ++ m, r.2)

/-! ## Image endpoint (platoClient lines 300 to 322) -/

structure ImageOptions where
  model : Option String
  size : Option String
  timeout_ms : Option Nat

structure ImagePayload where
  model : String
  prompt : String
  size : String
  response_format : String

structure ImageRequest where
  url : String
  headers : List (String × String)
  payload : ImagePayload

structure ImageDatum where
  url : Option String

structure ImagesResponse where
  data : Option (List ImageDatum)

def imagesFirstUrl (resp : ImagesResponse) : Option String :=
  ((resp.data.getD []).head?).bind ImageDatum.url

def mkImageRequest (env : PlatoEnv) (prompt : String) (opts : ImageOptions) :
    ImageRequest :=
  ⟨BASE_URL env ++ "/images/generations",
   [("Authorization", "Bearer " ++ API_KEY env),
    ("Content-Type", "application/json")],
   ⟨opts.model.getD (env.imageModelEnv.getD "nano-banana-2-2k"), prompt,
    opts.size.getD "1024x1024", "url"⟩⟩

/-- Embedding of imagesGenerate: missing configuration short-circuits
with undefined and no request; any caught error or HTTP error also
yields undefined; success yields the first datum url, when present. -/
def imagesGenerate (env : PlatoEnv) (tr : Nat → FetchResult ImagesResponse)
    (prompt : String) (opts : ImageOptions) : Option String × List ImageRequest :=
  if BASE_URL env = "" ∨ API_KEY env = "" then (none, [])
  else
    let req := mkImageRequest env prompt opts
    let r := postWithRetry tr req 0 2
    match r.1 with
    | PostResult.success data => (imagesFirstUrl data, r.2)
    | PostResult.httpError _ _ _ => (none, r.2)
    | PostResult.exn _ => (none, r.2)

/-! ## Data model (types.ts) -/

inductive NoteType where
  | TEXT : NoteType
  | IMAGE : NoteType
  | MIXED : NoteType
  | STACK : NoteType

inductive InsightPlatform where
  | NEWSLETTER : InsightPlatform
  | SOCIAL_MEDIA : InsightPlatform

inductive StackCategory where
  | TECH : StackCategory
  | LIFE : StackCategory
  | WISDOM : StackCategory
  | GENERAL : StackCategory
deriving DecidableEq

/-- A note; stacks carry their items.  The analysis underscore tags field
mirrors the property geminiService reads in buildNotesContext (absent at
runtime, hence optional). -/
inductive Note where
  | mk (id : String) (content : String) (ntype : NoteType)
      (analysisTags : Option (List String))
      (stackItems : Option (List Note)) : Note

def Note.content : Note → String
  | Note.mk _ c _ _ _ => c

def Note.ntype : Note → NoteType
  | Note.mk _ _ t _ _ => t

def Note.analysisTags : Note → Option (List String)
  | Note.mk _ _ _ a _ => a

def Note.stackItems : Note → Option (List Note)
  | Note.mk _ _ _ _ s => s

/-! ## Generation orchestrator (geminiService.ts) -/

def MODEL_ANALYZE : String := "gemini-2.5-flash"

def MODEL_TITLE : String := "gemini-2.5-flash"

def MODEL_CATEGORY : String := "gemini-2.5-flash"

def MODEL_INSIGHTS : String := "gemini-3-pro-preview"

/-- The image model constant of geminiService: the image-model environment
variable, defaulting to nano-banana. -/
def IMAGE_MODEL (env : PlatoEnv) : String :=
  env.imageModelEnv.getD "nano-banana"

def buildNotesContext (allNotes : List Note) : String :=
  String.intercalate "\n"
    (allNotes.map (fun n =>
      "---\n内容: " ++ n.content ++ "\n标签: " ++
      String.intercalate ", " (n.analysisTags.getD []) ++ "\n---"))

def analyzeSystemPrompt : String :=
  "你是一个内容分析助手。\n任务：从用户输入的文本/图片中提取：category(中文)、3-5个中文tags、sentiment(积极/中性/消极)。\n只返回JSON：\x7b \"category\": string, \"tags\": string[], \"sentiment\": string \x7d"

/-- The documented default returned when analyzeNoteContent receives no
text and no image. -/
def defaultAnalysis : JValue :=
  JValue.jobj
    [("category", JValue.jstr "未分类"),
     ("tags", JValue.jarr [JValue.jstr "待处理"]),
     ("sentiment", JValue.jstr "中性")]

/-- The decode fallback of analyzeNoteContent. -/
def analyzeFallback : JValue :=
  JValue.jobj
    [("category", JValue.jstr "常规"),
     ("tags", JValue.jarr [JValue.jstr "人工复核"]),
     ("sentiment", JValue.jstr "中性")]

/-- Embedding of analyzeNoteContent (geminiService lines 49 to 70): no
text and no image short-circuits to the documented default with no
request; otherwise the optional image part and optional text part form
the user message and the reply is decoded through safeJSON. -/
def analyzeNoteContent (env : PlatoEnv) (tr : Nat → FetchResult ChatResponse)
    (text : String) (imageBase64 : Option String) : JValue × List ChatRequest :=
  if text = "" ∧ imageBase64 = none then (defaultAnalysis, [])
  else
    let parts : List ChatMessageContentPart :=
      (match imageBase64 with
       | some ib =>
         let b64 :=
           if containsSubstr ib "," then ((ib.splitOn ",").drop 1).headD ""
           else ib
         [ChatMessageContentPart.image_url ("data:image/jpeg;base64," ++ b64)]
       | none => []) ++
      (if text = "" then [] else [ChatMessageContentPart.text text])
    let userContent :=
      if parts.isEmpty then ChatMessageContent.str "无内容"
      else ChatMessageContent.parts parts
    let r := chatCompletion env tr
      [⟨ChatRole.system, ChatMessageContent.str analyzeSystemPrompt⟩,
       ⟨ChatRole.user, userContent⟩]
      ⟨some MODEL_ANALYZE, some 0, none, none, []⟩
    (safeJSON r.1 analyzeFallback, r.2)

def titleSystemPrompt : String :=
  "你是标题生成器。规则：输出一个不超过10个字的中文标题，不要标点。只返回标题本身。"

/-- Embedding of generateStackTitle (geminiService lines 73 to 82): an
empty note list short-circuits to the unnamed-stack default; otherwise
the reply, or its fixed fallback when empty, has all whitespace removed
and is cut to twenty units. -/
def generateStackTitle (env : PlatoEnv) (tr : Nat → FetchResult ChatResponse)
    (notes : List Note) : String × List ChatRequest :=
  if notes.isEmpty then ("未命名卡片组", [])
  else
    let contentSummary := String.intercalate "\n" ((notes.take 5).map Note.content)
    let r := chatCompletion env tr
      [⟨ChatRole.system, ChatMessageContent.str titleSystemPrompt⟩,
       ⟨ChatRole.user, ChatMessageContent.str contentSummary⟩]
      ⟨some MODEL_TITLE, some (1 / 2 : Rat), none, none, []⟩
    let reply := if r.1 = "" then "新的笔记组" else r.1
    ((String.mk (reply.data.filter (fun c => !jsWs c))).take 20, r.2)

def categorySystemPrompt : String :=
  "请将内容归类到 TECH / LIFE / WISDOM / GENERAL 之一。只返回类别英文单词。"

/-- The keyword cascade applied to the uppercased category reply. -/
def classifyCategoryReply (reply : String) : StackCategory :=
  let u := jsToUpper reply
  if containsSubstr u "TECH" then StackCategory.TECH
  else if containsSubstr u "LIFE" then StackCategory.LIFE
  else if containsSubstr u "WISDOM" then StackCategory.WISDOM
  else StackCategory.GENERAL

/-- Embedding of determineStackCategory (geminiService lines 85 to 98):
an empty note list short-circuits to the GENERAL category; otherwise the
uppercased reply is classified by substring match. -/
def determineStackCategory (env : PlatoEnv) (tr : Nat → FetchResult ChatResponse)
    (notes : List Note) : StackCategory × List ChatRequest :=
  if notes.isEmpty then (StackCategory.GENERAL, [])
  else
    let contentSummary := String.intercalate "\n---\n" (notes.map Note.content)
    let r := chatCompletion env tr
      [⟨ChatRole.system, ChatMessageContent.str categorySystemPrompt⟩,
       ⟨ChatRole.user, ChatMessageContent.str contentSummary⟩]
      ⟨some MODEL_CATEGORY, some 0, none, none, []⟩
    (classifyCategoryReply r.1, r.2)

def ANTIGRAVITY_LAYOUT_RULES : String :=
  "\n# 核心目标：多模态图文策展\n你是一位专业的杂志编辑，负责文章的文字、视觉节奏、重点高亮和配图设计。\n\n# 智能排版与微格式 (Micro-Typography Logic) - 必须严格遵守\n1.  **分段规则 (Segmentation Rule)**: 严禁输出大段文字。必须强制遵循“短段落”原则，单一笔段落不得超过 4 行（或约 150 字）。一旦超长，必须强制换行。\n2.  **高亮逻辑 (Highlighting Logic)**: 需识别每段文字中的“信息密度最高点”或“金句”，并使用 **加粗** 包裹核心观点。每段最多允许 1 处加粗，且加粗长度不得超过该段落长度的 30%。\n3.  **引用逻辑 (Blockquote Logic)**: 在每个 H2 章节的结尾，必须提炼一句总结性的话，使用 > 引用格式展示，作为章节的“锚点”。\n\n# AI 配图生成机制 (AI Image Generation Strategy) - 必须严格遵守\n1.  **生成模式**: 根据当前段落的语义，实时决定画什么。\n2.  **技术标记**: 当你认为“这里需要一张图来解释”时，主动发起插入请求。请求方式为：在独立的一行中，使用占位符 \x27\x7b\x7bGEN_IMG: A concise English prompt describing the image\x7d\x7d\x27。\n3.  **Prompt 内容规则**: Prompt 必须只描述画面的**核心内容**（what to draw），严禁包含任何关于**风格、画风、颜色、构图**的词汇（how to draw）。例如，使用 \x27A shield protecting a plant from a storm\x27 而不是 \x27An isometric vector art of a shield...\x27。\n4.  **插入位置**: 仅允许在 **段落与段落之间** 或 **H2 标题下方** 插入图片占位符。严禁在句子中间、行内插入。\n5.  **数量限制**: 整篇文章的图片数量限制为 2-4 张。"

/-- The system prompt selection of generateInsights, by platform and then
by style category. -/
def insightsSystemPrompt (platform : InsightPlatform) (category : StackCategory) :
    String :=
  match platform with
  | InsightPlatform.SOCIAL_MEDIA =>
    "你是社交媒体运营专家。生成适合小红书/Twitter 的中文短文案：\n1) 吸睛标题(含Emoji)\n2) 核心观点列表\n3) 金句\n4) Hashtags"
  | InsightPlatform.NEWSLETTER =>
    match category with
    | StackCategory.TECH =>
      ANTIGRAVITY_LAYOUT_RULES ++
      "\n你是资深技术专家，写技术复盘文章（公众号移动端友好）:\n- 代码用代码块并标注语言\n- 段落≤3行，段距留白\n- 关键概念用 **加粗** 或 `行内代码`\n- 章节末尾用 > 引用 做总结"
    | StackCategory.LIFE =>
      ANTIGRAVITY_LAYOUT_RULES ++
      "\n你是生活方式博主，写有“杂志感”的随笔：\n- 每段≤2行、短句\n- 场景之间用 --- 或 Emoji 分隔\n- 情感金句用 > 引用 单独呈现"
    | StackCategory.WISDOM =>
      ANTIGRAVITY_LAYOUT_RULES ++
      "\n你是“芒格风格”的深度思考者：\n- 使用至少2个思维模型\n- H2/H3 清晰结构\n- 每个核心观点后用 > 引用 提炼金句"
    | StackCategory.GENERAL =>
      ANTIGRAVITY_LAYOUT_RULES ++
      "\n生成“GrowthLoop 日报”：有标题、分模块、深度总结，中文输出。"

/-- The stack-flattening step of generateInsights: a stack with items
contributes its items, anything else contributes itself. -/
def flattenNote (n : Note) : List Note :=
  match n.ntype, n.stackItems with
  | NoteType.STACK, some items => items
  | _, _ => [n]

/-- Embedding of generateInsights (geminiService lines 101 to 154): an
empty note list short-circuits with the fixed no-notes message and no
request; otherwise stacks are flattened, the context is assembled, and
an empty reply becomes the fixed failure message. -/
def generateInsights (env : PlatoEnv) (tr : Nat → FetchResult ChatResponse)
    (notes : List Note) (platform : InsightPlatform) (category : StackCategory) :
    String × List ChatRequest :=
  if notes.isEmpty then ("没有可用的笔记进行分析。", [])
  else
    let allNotes := notes.flatMap flattenNote
    let notesContext := buildNotesContext allNotes
    let user := "Input Data (User Notes):\n" ++ notesContext
    let r := chatCompletion env tr
      [⟨ChatRole.system, ChatMessageContent.str (insightsSystemPrompt platform category)⟩,
       ⟨ChatRole.user, ChatMessageContent.str user⟩]
      ⟨some MODEL_INSIGHTS, some (7 / 10 : Rat), none, none, []⟩
    ((if r.1 = "" then "无法生成洞察。" else r.1), r.2)

/-- Embedding of generateInContextImage (geminiService lines 168 to 171):
the prompt is extended with the fixed style suffix and sent to the image
endpoint at size 1024x576. -/
def generateInContextImage (env : PlatoEnv) (tr : Nat → FetchResult ImagesResponse)
    (prompt : String) : Option String × List ImageRequest :=
  let styleSuffix := ", minimalist vector art, high contrast, black and white"
  imagesGenerate env tr (prompt ++ styleSuffix)
    ⟨some (IMAGE_MODEL env), some "1024x576", none⟩

/-! ## Transport lemmas -/

/-- When every response before attempt m is a retryable status and the
response at attempt m is a status too, postWithRetry with budget m walks
the whole sequence and surfaces the final status. -/
theorem postWithRetry_exhaust {T B : Type} (tr : Nat → FetchResult T) (body : B) :
    ∀ (m i : Nat) (c : Nat) (st txt : String) (ra : Option Nat),
      (∀ j, j < m → retryableResp (tr (i + j)) = true) →
      tr (i + m) = FetchResult.status c st txt ra →
      retryable c = true →
      postWithRetry tr body i m =
        (PostResult.httpError c st txt, List.replicate (m + 1) body) := by
  intro m
  induction m with
  | zero =>
    intro i c st txt ra _ h2 _
    rw [Nat.add_zero] at h2
    simp [postWithRetry, h2]
  | succ m ih =>
    intro i c st txt ra h1 h2 h3
    have h0 : retryableResp (tr i) = true := by
      have h := h1 0 (Nat.succ_pos m)
      rwa [Nat.add_zero] at h
    cases htr : tr i with
    | ok v => rw [htr] at h0; simp [retryableResp] at h0
    | exn msg => rw [htr] at h0; simp [retryableResp] at h0
    | status c0 st0 t0 ra0 =>
      rw [htr] at h0
      simp only [retryableResp] at h0
      have hrec := ih (i + 1) c st txt ra
        (fun j hj => by
          have h := h1 (j + 1) (Nat.succ_lt_succ hj)
          rwa [show i + (j + 1) = i + 1 + j by omega] at h)
        (by rwa [show i + (m + 1) = i + 1 + m by omega] at h2)
        h3
      simp [postWithRetry, htr, h0, hrec, List.replicate_succ]

/-- When attempt k succeeds and every earlier response is a retryable
status, postWithRetry with any budget of at least k returns the success
payload after exactly k plus one calls. -/
theorem postWithRetry_hits {T B : Type} (tr : Nat → FetchResult T) (body : B) :
    ∀ (k i m : Nat) (v : T),
      k ≤ m →
      (∀ j, j < k → retryableResp (tr (i + j)) = true) →
      tr (i + k) = FetchResult.ok v →
      postWithRetry tr body i m =
        (PostResult.success v, List.replicate (k + 1) body) := by
  intro k
  induction k with
  | zero =>
    intro i m v _ _ h2
    rw [Nat.add_zero] at h2
    cases m <;> simp [postWithRetry, h2]
  | succ k ih =>
    intro i m v hkm h1 h2
    cases m with
    | zero => omega
    | succ m' =>
      have h0 : retryableResp (tr i) = true := by
        have h := h1 0 (Nat.succ_pos k)
        rwa [Nat.add_zero] at h
      cases htr : tr i with
      | ok v0 => rw [htr] at h0; simp [retryableResp] at h0
      | exn msg => rw [htr] at h0; simp [retryableResp] at h0
      | status c0 st0 t0 ra0 =>
        rw [htr] at h0
        simp only [retryableResp] at h0
        have hrec := ih (i + 1) m' v (by omega)
          (fun j hj => by
            have h := h1 (j + 1) (Nat.succ_lt_succ hj)
            rwa [show i + (j + 1) = i + 1 + j by omega] at h)
          (by rwa [show i + (k + 1) = i + 1 + k by omega] at h2)
        simp [postWithRetry, htr, h0, hrec, List.replicate_succ]

/-- Every request posted by postWithRetry is the one body it was given. -/
theorem postWithRetry_requests_mem {T B : Type} (tr : Nat → FetchResult T)
    (body : B) :
    ∀ (m i : Nat) (b : B), b ∈ (postWithRetry tr body i m).2 → b = body := by
  intro m
  induction m with
  | zero =>
    intro i b hb
    cases htr : tr i <;> simp [postWithRetry, htr] at hb <;> exact hb
  | succ m ih =>
    intro i b hb
    cases htr : tr i with
    | ok v => simp [postWithRetry, htr] at hb; exact hb
    | exn msg => simp [postWithRetry, htr] at hb; exact hb
    | status c st txt ra =>
      by_cases hc : retryable c
      · simp [postWithRetry, htr, hc] at hb
        rcases hb with rfl | hb'
        · rfl
        · exact ih (i + 1) b hb'
      · simp [postWithRetry, htr, hc] at hb; exact hb

/-- postWithRetry always posts at least once. -/
theorem postWithRetry_requests_ne_nil {T B : Type} (tr : Nat → FetchResult T)
    (body : B) : ∀ (m i : Nat), (postWithRetry tr body i m).2 ≠ [] := by
  intro m
  induction m with
  | zero => intro i; cases htr : tr i <;> simp [postWithRetry, htr]
  | succ m ih =>
    intro i
    cases htr : tr i with
    | ok v => simp [postWithRetry, htr]
    | exn msg => simp [postWithRetry, htr]
    | status c st txt ra =>
      by_cases hc : retryable c <;> simp [postWithRetry, htr, hc]

/-- C1: with a response sequence answering every attempt with HTTP 429 or
a 5xx status, postWithRetry makes one call per attempt, performing the
initial attempt plus exactly maxRetries retries (the request list has
maxRetries plus one entries) and then returns the terminal error carrying
the final status code and body text; and when an attempt within the
budget succeeds, its payload is returned at that point with no further
calls.  The attempt count is a function of the response sequence, hence
deterministic. -/
theorem c1_postWithRetry_budget :
    (∀ (T B : Type) (tr : Nat → FetchResult T) (body : B) (m : Nat)
        (c : Nat) (st txt : String) (ra : Option Nat),
        (∀ j, j < m → retryableResp (tr j) = true) →
        tr m = FetchResult.status c st txt ra →
        retryable c = true →
        postWithRetry tr body 0 m =
          (PostResult.httpError c st txt, List.replicate (m + 1) body))
    ∧ (∀ (T B : Type) (tr : Nat → FetchResult T) (body : B) (m k : Nat) (v : T),
        k ≤ m →
        (∀ j, j < k → retryableResp (tr j) = true) →
        tr k = FetchResult.ok v →
        postWithRetry tr body 0 m =
          (PostResult.success v, List.replicate (k + 1) body)) := by
  constructor
  · intro T B tr body m c st txt ra h1 h2 h3
    exact postWithRetry_exhaust tr body m 0 c st txt ra
      (fun j hj => by simpa using h1 j hj) (by simpa using h2) h3
  · intro T B tr body m k v hkm h1 h2
    exact postWithRetry_hits tr body k 0 m v hkm
      (fun j hj => by simpa using h1 j hj) (by simpa using h2)

def c1TrFail : Nat → FetchResult Nat := fun j =>
  if j < 2 then FetchResult.status 500 "Internal Server Error" "busy" none
  else FetchResult.status 503 "Service Unavailable" "final body" none

def c1TrOk : Nat → FetchResult Nat := fun j =>
  if j = 0 then FetchResult.status 429 "Too Many Requests" "slow down" (some 1000)
  else FetchResult.ok 7

/-- Witness for C1 at two concrete response sequences: three failing
responses exhaust a budget of two retries with three calls, and a 429
followed by a success returns the payload after two calls. -/
theorem c1_witness :
    (postWithRetry c1TrFail (0 : Nat) 0 2 =
      (PostResult.httpError 503 "Service Unavailable" "final body",
       List.replicate 3 (0 : Nat)))
    ∧ (postWithRetry c1TrOk (0 : Nat) 0 2 =
      (PostResult.success 7, List.replicate 2 (0 : Nat))) := by
  constructor
  · exact c1_postWithRetry_budget.1 Nat Nat c1TrFail 0 2 503 "Service Unavailable"
      "final body" none (by decide) rfl rfl
  · exact c1_postWithRetry_budget.2 Nat Nat c1TrOk 0 2 1 7 (by decide) (by decide) rfl

/-- C7: with the base URL or the credential absent, chatCompletion
returns the fixed configuration-error message and imagesGenerate returns
undefined, both with an empty request list, before any network call. -/
theorem c7_missing_config_no_call :
    ∀ (env : PlatoEnv) (trC : Nat → FetchResult ChatResponse)
      (trI : Nat → FetchResult ImagesResponse) (messages : List ChatMessage)
      (options : ChatOptions) (prompt : String) (iopts : ImageOptions),
      BASE_URL env = "" ∨ API_KEY env = "" →
      chatCompletion env trC messages options = (configErrorReply, [])
      ∧ imagesGenerate env trI prompt iopts = (none, []) := by
  intro env trC trI messages options prompt iopts h
  constructor
  · unfold chatCompletion
    rw [if_pos h]
  · unfold imagesGenerate
    rw [if_pos h]

def c7Env : PlatoEnv := ⟨"", "secret", none, none⟩

/-- Witness for C7 with an empty base URL. -/
theorem c7_witness :
    chatCompletion c7Env (fun _ => FetchResult.exn "boom") []
      ⟨none, none, none, none, []⟩ = (configErrorReply, [])
    ∧ imagesGenerate c7Env (fun _ => FetchResult.exn "boom") "p"
      ⟨none, none, none⟩ = (none, []) :=
  c7_missing_config_no_call c7Env (fun _ => FetchResult.exn "boom")
    (fun _ => FetchResult.exn "boom") [] ⟨none, none, none, none, []⟩ "p"
    ⟨none, none, none⟩ (Or.inl rfl)

/-- C8: every orchestrator operation short-circuits on insufficient input
with its documented default and an empty request list (these operations
issue chat requests only, so zero requests means zero chat and zero
image calls). -/
theorem c8_insufficient_input_defaults :
    ∀ (env : PlatoEnv) (tr : Nat → FetchResult ChatResponse)
      (platform : InsightPlatform) (category : StackCategory),
      analyzeNoteContent env tr "" none = (defaultAnalysis, [])
      ∧ generateInsights env tr [] platform category = ("没有可用的笔记进行分析。", [])
      ∧ generateStackTitle env tr [] = ("未命名卡片组", [])
      ∧ determineStackCategory env tr [] = (StackCategory.GENERAL, []) := by
  intro env tr platform category
  exact ⟨rfl, rfl, rfl, rfl⟩

/-- A chat response whose first choice carries the given text. -/
def simpleChatResponse (r : String) : ChatResponse :=
  ⟨some [⟨some ⟨some r⟩⟩], none⟩

/-- chatCompletion on a configured client whose first response succeeds
with a non-empty text returns that text after a single request. -/
theorem chatCompletion_ok (env : PlatoEnv) (tr : Nat → FetchResult ChatResponse)
    (messages : List ChatMessage) (options : ChatOptions) (r : String)
    (hb : BASE_URL env ≠ "") (hk : API_KEY env ≠ "")
    (htr : tr 0 = FetchResult.ok (simpleChatResponse r)) (hr : r ≠ "") :
    chatCompletion env tr messages options =
      (r, [mkChatRequest env messages options]) := by
  unfold chatCompletion
  rw [if_neg (by rintro (h | h); exact hb h; exact hk h)]
  have hpost : postWithRetry tr (mkChatRequest env messages options) 0 2 =
      (PostResult.success (simpleChatResponse r),
       [mkChatRequest env messages options]) := by
    simp [postWithRetry, htr]
  simp only [hpost]
  simp [extractChatText, simpleChatResponse, hr]

/-- C9: for a non-empty note list, determineStackCategory classifies the
model reply by case-insensitive substring match in the order TECH, LIFE,
WISDOM over the uppercased reply, defaulting to GENERAL; in particular a
reply containing TECH maps to TECH and a reply with no keyword maps to
GENERAL. -/
theorem c9_classification :
    ∀ (env : PlatoEnv) (tr : Nat → FetchResult ChatResponse)
      (notes : List Note) (r : String),
      BASE_URL env ≠ "" → API_KEY env ≠ "" → notes.isEmpty = false →
      tr 0 = FetchResult.ok (simpleChatResponse r) → r ≠ "" →
      (determineStackCategory env tr notes).1 = classifyCategoryReply r
      ∧ classifyCategoryReply "TECH looks right" = StackCategory.TECH
      ∧ classifyCategoryReply "banana" = StackCategory.GENERAL := by
  intro env tr notes r hb hk hne htr hr
  refine ⟨?_, rfl, rfl⟩
  simp only [determineStackCategory, hne, Bool.false_eq_true, if_false]
  rw [chatCompletion_ok env tr _ _ r hb hk htr hr]

def c9Env : PlatoEnv := ⟨"https://api.example", "sk-test", none, none⟩

def c9Tr : Nat → FetchResult ChatResponse :=
  fun _ => FetchResult.ok (simpleChatResponse "TECH looks right")

def c9Note : Note := Note.mk "n1" "hello" NoteType.TEXT none none

/-- Witness for C9 at a concrete configured client and reply. -/
theorem c9_witness :
    (determineStackCategory c9Env c9Tr [c9Note]).1 = StackCategory.TECH := by
  have h := c9_classification c9Env c9Tr [c9Note] "TECH looks right"
    (by decide) (by decide) rfl rfl (by decide)
  rw [h.1]
  exact h.2.1

/-- On a configured client, the requests imagesGenerate issues are those
of postWithRetry on the one assembled request. -/
theorem imagesGenerate_requests (env : PlatoEnv)
    (tr : Nat → FetchResult ImagesResponse) (prompt : String)
    (opts : ImageOptions) (h : ¬(BASE_URL env = "" ∨ API_KEY env = "")) :
    (imagesGenerate env tr prompt opts).2 =
      (postWithRetry tr (mkImageRequest env prompt opts) 0 2).2 := by
  unfold imagesGenerate
  rw [if_neg h]
  cases hres : (postWithRetry tr (mkImageRequest env prompt opts) 0 2).1 <;>
    simp [hres]

/-- C10: generateInContextImage posts every request with prompt exactly
the given prompt followed by the fixed style suffix, at size 1024x576
with the geminiService image model, and returns the first url of a
successful response, or undefined on a terminal HTTP error. -/
theorem c10_generateInContextImage_style :
    ∀ (env : PlatoEnv) (tr : Nat → FetchResult ImagesResponse) (p : String),
      BASE_URL env ≠ "" → API_KEY env ≠ "" →
      (∀ req ∈ (generateInContextImage env tr p).2,
          req.payload.prompt =
            p ++ ", minimalist vector art, high contrast, black and white"
          ∧ req.payload.size = "1024x576"
          ∧ req.payload.model = IMAGE_MODEL env)
      ∧ (generateInContextImage env tr p).2 ≠ []
      ∧ (∀ resp, tr 0 = FetchResult.ok resp →
          (generateInContextImage env tr p).1 = imagesFirstUrl resp)
      ∧ (∀ c st b ra, tr 0 = FetchResult.status c st b ra → retryable c = false →
          (generateInContextImage env tr p).1 = none) := by
  intro env tr p hb hk
  have hcfg : ¬(BASE_URL env = "" ∨ API_KEY env = "") := by
    rintro (h | h); exact hb h; exact hk h
  refine ⟨?_, ?_, ?_, ?_⟩
  · intro req hreq
    unfold generateInContextImage at hreq
    rw [imagesGenerate_requests env tr _ _ hcfg] at hreq
    have heq := postWithRetry_requests_mem tr _ 2 0 req hreq
    rw [heq]
    exact ⟨rfl, rfl, rfl⟩
  · unfold generateInContextImage
    rw [imagesGenerate_requests env tr _ _ hcfg]
    exact postWithRetry_requests_ne_nil tr _ 2 0
  · intro resp htr
    unfold generateInContextImage imagesGenerate
    rw [if_neg hcfg]
    have hpost : postWithRetry tr
        (mkImageRequest env
          (p ++ ", minimalist vector art, high contrast, black and white")
          ⟨some (IMAGE_MODEL env), some "1024x576", none⟩) 0 2 =
        (PostResult.success resp,
         [mkImageRequest env
           (p ++ ", minimalist vector art, high contrast, black and white")
           ⟨some (IMAGE_MODEL env), some "1024x576", none⟩]) := by
      simp [postWithRetry, htr]
    simp [hpost]
  · intro c st b ra htr hret
    unfold generateInContextImage imagesGenerate
    rw [if_neg hcfg]
    have hpost : postWithRetry tr
        (mkImageRequest env
          (p ++ ", minimalist vector art, high contrast, black and white")
          ⟨some (IMAGE_MODEL env), some "1024x576", none⟩) 0 2 =
        (PostResult.httpError c st b,
         [mkImageRequest env
           (p ++ ", minimalist vector art, high contrast, black and white")
           ⟨some (IMAGE_MODEL env), some "1024x576", none⟩]) := by
      simp [postWithRetry, htr, hret]
    simp [hpost]

def c10Env : PlatoEnv := ⟨"https://api.example", "sk-test", none, none⟩

def c10Resp : ImagesResponse := ⟨some [⟨some "https://img/1.png"⟩]⟩

def c10Tr : Nat → FetchResult ImagesResponse := fun _ => FetchResult.ok c10Resp

/-- Witness for C10 at a concrete configured client and response. -/
theorem c10_witness :
    (generateInContextImage c10Env c10Tr "a dog").1 = some "https://img/1.png"
    ∧ (generateInContextImage c10Env c10Tr "a dog").2 ≠ [] := by
  have h := c10_generateInContextImage_style c10Env c10Tr "a dog"
    (by decide) (by decide)
  exact ⟨(h.2.2.1 c10Resp rfl).trans rfl, h.2.1⟩

/-! ## Placeholder-map lemmas -/

theorem mapLookup_insert_self :
    ∀ (m : PlaceholderMap) (p : String) (e : PEntry),
      mapLookup (mapInsert m p e) p = some e := by
  intro m p e
  induction m with
  | nil => simp [mapInsert, mapLookup]
  | cons hd rest ih =>
    by_cases h : hd.1 = p
    · simp [mapInsert, mapLookup, h]
    · simp [mapInsert, mapLookup, h, ih]

theorem mapLookup_insert_isSome :
    ∀ (m : PlaceholderMap) (p : String) (e : PEntry) (q : String),
      (mapLookup m q).isSome = true →
      (mapLookup (mapInsert m p e) q).isSome = true := by
  intro m p e q
  induction m with
  | nil => intro h; simp [mapLookup] at h
  | cons hd rest ih =>
    obtain ⟨k, f⟩ := hd
    intro h
    by_cases hk : k = p
    · rw [show mapInsert ((k, f) :: rest) p e = (k, e) :: rest by
        simp [mapInsert, hk]]
      by_cases hq : k = q
      · simp only [mapLookup]
        rw [if_pos hq]
        rfl
      · simp only [mapLookup] at h ⊢
        rw [if_neg hq] at h ⊢
        exact h
    · rw [show mapInsert ((k, f) :: rest) p e = (k, f) :: mapInsert rest p e by
        simp [mapInsert, hk]]
      by_cases hq : k = q
      · simp only [mapLookup]
        rw [if_pos hq]
        rfl
      · simp only [mapLookup] at h ⊢
        rw [if_neg hq] at h ⊢
        exact ih h

/-- The accumulated map of the scan loop only grows. -/
theorem scanList_mono (snapshot : PlaceholderMap) :
    ∀ (ps : List String) (acc : PlaceholderMap) (q : String),
      (mapLookup acc q).isSome = true →
      (mapLookup (scanList snapshot ps acc).1 q).isSome = true := by
  intro ps
  induction ps with
  | nil => intro acc q h; simpa [scanList] using h
  | cons p ps ih =>
    intro acc q h
    by_cases hp : (mapLookup snapshot p).isSome = true
    · simpa [scanList, hp] using ih acc q h
    · simp only [scanList, hp, if_false]
      exact ih (mapInsert acc p ⟨true, none⟩) q
        (mapLookup_insert_isSome acc p ⟨true, none⟩ q h)

/-- After a scan, every scanned prompt is tracked in the resulting map. -/
theorem scanList_covers (snapshot : PlaceholderMap) :
    ∀ (ps : List String) (acc : PlaceholderMap),
      (∀ q, (mapLookup snapshot q).isSome = true →
        (mapLookup acc q).isSome = true) →
      ∀ p ∈ ps, (mapLookup (scanList snapshot ps acc).1 p).isSome = true := by
  intro ps
  induction ps with
  | nil => intro acc _ p hp; simp at hp
  | cons p' ps ih =>
    intro acc hacc p hp
    rcases List.mem_cons.mp hp with rfl | hmem
    · by_cases hp' : (mapLookup snapshot p).isSome = true
      · simp only [scanList, hp', if_true]
        exact scanList_mono snapshot ps acc p (hacc p hp')
      · simp only [scanList, hp', if_false]
        exact scanList_mono snapshot ps (mapInsert acc p ⟨true, none⟩) p
          (by rw [mapLookup_insert_self]; rfl)
    · by_cases hp' : (mapLookup snapshot p').isSome = true
      · simp only [scanList, hp', if_true]
        exact ih acc hacc p hmem
      · simp only [scanList, hp', if_false]
        exact ih (mapInsert acc p' ⟨true, none⟩)
          (fun q hq => mapLookup_insert_isSome acc p' ⟨true, none⟩ q (hacc q hq))
          p hmem

/-- A scan whose prompts are all already tracked in the snapshot issues
no request and leaves the map unchanged. -/
theorem scanList_noNew (snapshot : PlaceholderMap) :
    ∀ (ps : List String) (acc : PlaceholderMap),
      (∀ p ∈ ps, (mapLookup snapshot p).isSome = true) →
      scanList snapshot ps acc = (acc, []) := by
  intro ps
  induction ps with
  | nil => intro acc _; rfl
  | cons p ps ih =>
    intro acc h
    have hp := h p (List.mem_cons_self p ps)
    simp only [scanList, hp, if_true]
    exact ih acc (fun q hq => h q (List.mem_cons_of_mem p hq))

/-- Every prompt for which the scan loop issued a request was untracked
in the snapshot the loop closure read. -/
theorem scanList_requests_new (snapshot : PlaceholderMap) :
    ∀ (ps : List String) (acc : PlaceholderMap) (p : String),
      p ∈ (scanList snapshot ps acc).2 → mapLookup snapshot p = none := by
  intro ps
  induction ps with
  | nil => intro acc p hp; simp [scanList] at hp
  | cons p' ps ih =>
    intro acc p hp
    by_cases hp' : (mapLookup snapshot p').isSome = true
    · simp only [scanList, hp', if_true] at hp
      exact ih acc p hp
    · simp only [scanList, hp', if_false] at hp
      rcases List.mem_cons.mp hp with rfl | hmem
      · exact Option.not_isSome_iff_eq_none.mp hp'
      · exact ih (mapInsert acc p' ⟨true, none⟩) p hmem

/-- C4: scanning the same document a second time with the map produced by
the first scan issues zero image-generation requests, and more generally
no request is ever issued for a prompt whose entry already exists in the
map a scan reads. -/
theorem c4_idempotent_rescan :
    (∀ (doc : String) (m : PlaceholderMap),
        (scanEffect doc (scanEffect doc m).1).2 = [])
    ∧ (∀ (doc : String) (m : PlaceholderMap) (p : String),
        (mapLookup m p).isSome = true → p ∉ (scanEffect doc m).2) := by
  constructor
  · intro doc m
    have hcov := scanList_covers m (extractPrompts doc) m (fun _ hq => hq)
    have h := scanList_noNew (scanList m (extractPrompts doc) m).1
      (extractPrompts doc) (scanList m (extractPrompts doc) m).1 hcov
    unfold scanEffect
    rw [h]
  · intro doc m p hp hmem
    have h := scanList_requests_new m (extractPrompts doc) m p hmem
    rw [h] at hp
    simp at hp

def c4Doc : String := "\x7b\x7bGEN_IMG: X\x7d\x7d"

def c4Map : PlaceholderMap := [("X", ⟨false, some "https://img/x.png"⟩)]

/-- Witness for C4: a tracked prompt is not requested again. -/
theorem c4_witness : "X" ∉ (scanEffect c4Doc c4Map).2 :=
  c4_idempotent_rescan.2 c4Doc c4Map "X" rfl

def c2Doc : String := "\x7b\x7bGEN_IMG: X\x7d\x7d and \x7b\x7bGEN_IMG: X\x7d\x7d"

/-- C2 (failing behavior of the code): on a document holding the same
prompt twice, one effect run issues two image-generation calls, because
the loop guard reads the state snapshot captured by the effect closure;
the materialized view replaces only the first token occurrence, because
String.replace with a string pattern replaces one occurrence; and the
sequential InsightGenerator loop issues one call per occurrence, so the
two occurrences can resolve to two different urls. -/
theorem c2_duplicate_prompt_two_calls :
    (scanEffect c2Doc []).2 = ["X", "X"]
    ∧ finalEditorContent c2Doc [("X", ⟨false, some "https://img/x.png"⟩)] =
        "\n![Generated image for prompt: X](https://img/x.png)\n and \x7b\x7bGEN_IMG: X\x7d\x7d"
    ∧ processInContextImages
        (fun i => if i == 0 then some "https://img/1.png" else some "https://img/2.png")
        c2Doc =
        ("\n![X](https://img/1.png)\n and \n![X](https://img/2.png)\n", 2) :=
  ⟨rfl, rfl, rfl⟩

def c5Doc : String := "# Title\n\nPara.\n\n\x7b\x7bGEN_IMG: a cat\x7d\x7d\n\nMore."

def c5Map : PlaceholderMap := [("a cat", ⟨false, some "https://x/cat.png"⟩)]

/-- C5: materializing the example document against a map that resolved
its single prompt replaces the placeholder token with an image reference
to the resolved url and leaves all surrounding text untouched.
finalEditorContent is a pure function of the document text and the map,
and returns a new string without mutating its input. -/
theorem c5_materialization :
    finalEditorContent c5Doc c5Map =
      "# Title\n\nPara.\n\n\n![Generated image for prompt: a cat](https://x/cat.png)\n\n\nMore." :=
  rfl

def c3Input : String := "\x7b\"a\":1\x7d ```x``` "

/-- C3 counterexample: on this input a fenced code block exists whose
content does not parse, while the first balanced brace span parses to an
object; the claim then requires that successful parse to be returned,
but safeJSON returns the fallback and not that object. -/
theorem c3_counterexample :
    safeJSON c3Input (JValue.jstr "FB") = JValue.jstr "FB"
    ∧ jsonParse ((spec_firstBalancedSpan c3Input).getD "") =
        some (JValue.jobj [("a", JValue.jnum "1")])
    ∧ JValue.jstr "FB" ≠ JValue.jobj [("a", JValue.jnum "1")] := by
  refine ⟨rfl, rfl, ?_⟩
  intro h
  exact JValue.noConfusion h

/-- C3 (amended): safeJSON commits to the first strategy whose guard
applies, in the order fenced block, trimmed string starting with a brace
or bracket, then the brace span from the first opening brace to the last
closing brace; the committed parse succeeding determines the result, its
failure yields the fallback with no later strategy attempted, and the
fallback is also returned when no guard applies. -/
theorem c3_safeJSON_first_applicable :
    ∀ (s : String) (fallback : JValue),
      safeJSON s fallback = spec_safeJSON_amended s fallback := by
  intro s fallback
  unfold safeJSON spec_safeJSON_amended spec_strategies
  cases h : findCodeBlock s with
  | some content => simp [h, spec_firstApplicable]
  | none =>
    by_cases hs : strStartsWith (jsTrim s) "\x7b" = true ∨ strStartsWith (jsTrim s) "[" = true
    · simp [h, hs, spec_firstApplicable]
    · cases hb : braceSpan s <;> simp [h, hs, hb, spec_firstApplicable]

/-- C6: safeJSON, modelled as a total function (JSON.parse failures are
the none outcome of jsonParse, absorbed by the surrounding try), maps a
fenced json block, a bare object string, and an object embedded in noise
all to the same parsed object, and returns the caller-supplied fallback
unchanged on text with no extractable JSON. -/
theorem c6_safeJSON_examples :
    ∀ fallback : JValue,
      safeJSON "```json\n\x7b\"a\":1\x7d\n```" fallback =
        JValue.jobj [("a", JValue.jnum "1")]
      ∧ safeJSON "\x7b\"a\":1\x7d" fallback = JValue.jobj [("a", JValue.jnum "1")]
      ∧ safeJSON "noise \x7b\"a\":1\x7d noise" fallback =
        JValue.jobj [("a", JValue.jnum "1")]
      ∧ safeJSON "not json at all" fallback = fallback := by
  intro fallback
  exact ⟨rfl, rfl, rfl, rfl⟩

end Growthloop
